import Mathlib

/-!
Verification development for the compositor-killer stress client.

The definitions below are a shallow embedding of the C sources:
the fence-timestamp query (`fence_timestamp` in both program variants),
the growable parallel collections of poll descriptors and frame metadata
kept by `main` (`fds` / `fences`, with position 0 reserved for the
display socket), the reap/compaction loop, and the main event loop
(render gate, resize/acknowledge handshake, flush/poll error paths).
Machine integers are modelled as `Nat`/`Int`, with explicit `% 2^64`
where unsigned wraparound occurs; kernel and server behaviour is an
explicit environment parameter.
-/

namespace CompositorKiller

/-! ## FenceCompletion: fence_timestamp

The C function issues `SYNC_IOC_FILE_INFO` twice: a first query that
reports the number of merged fence points (and can fail), and a second
query that fills a buffer with one `sync_fence_info` per point (and can
also fail).  The kernel's answers are modelled as a `FenceQuery`: the
first `ioctl`'s outcome (`none` = failure, `some n` = reported count)
and the second's (`none` = failure, `some ts` = the `timestamp_ns`
values the loop then iterates over). -/

structure FenceQuery where
  first : Option Nat
  second : Option (List Nat)
deriving Repr, DecidableEq

/-- Embedding of the accumulation loop
`for i ...: if (fences[i].timestamp_ns > latest) latest = fences[i].timestamp_ns`. -/
def fence_timestamp_loop : List Nat → Nat → Nat
  | [], latest => latest
  | t :: ts, latest => fence_timestamp_loop ts (if latest < t then t else latest)

/-- Embedding of `fence_timestamp` from src/unnamed/part_000 (first variant,
lines 194-218): both `ioctl` failures return the sentinel 0 (after `perror`);
otherwise the maximum `timestamp_ns` over the reported points, starting
from `latest = 0`. -/
def fence_timestamp (q : FenceQuery) : Nat :=
  match q.first with
  | none => 0
  | some _ =>
    match q.second with
    | none => 0
    | some ts => fence_timestamp_loop ts 0

/-- Embedding of `fence_timestamp` from the second variant in
src/unnamed/part_000 (lines 856-880); the C text is identical. -/
def fence_timestamp_v2 (q : FenceQuery) : Nat :=
  match q.first with
  | none => 0
  | some _ =>
    match q.second with
    | none => 0
    | some ts => fence_timestamp_loop ts 0

/-- Embedding of `fence_timestamp` from src/main.c (lines 224-248); again
textually identical C. -/
def fence_timestamp_main (q : FenceQuery) : Nat :=
  match q.first with
  | none => 0
  | some _ =>
    match q.second with
    | none => 0
    | some ts => fence_timestamp_loop ts 0

/-! ## FenceTracker: the parallel `fds` / `fences` collections

`main` keeps `struct pollfd *fds` and `struct { int frame_num; uint64_t
start_ns; } *fences` as two parallel arrays with a shared `len` and
`cap`; `fds[0]` is reserved for the display socket.  The arrays are
modelled as lists (holding the `len` live entries); `cap` is carried
separately. -/

structure pollfd where
  fd : Int
  events_pollin : Bool
  events_pollout : Bool
  revents_pollin : Bool
  revents_errhup : Bool
deriving Repr, DecidableEq

structure fence_rec where
  frame_num : Nat
  start_ns : Nat
deriving Repr, DecidableEq

structure Tracker where
  cap : Nat
  fds : List pollfd
  fences : List fence_rec
deriving Repr, DecidableEq

/-- Embedding of the tracking append in `main` (src/unnamed/part_000 lines
565-583): when `len == cap`, capacity doubles and both arrays are
`realloc`ed in lockstep (`alloc_ok = false` models `realloc` failure,
which makes `main` return 1); then the duplicated fence descriptor and
the frame metadata are written at index `len` and `len` is incremented. -/
def Tracker.track (t : Tracker) (alloc_ok : Bool) (fd : Int)
    (frame_num start_ns : Nat) : Except Nat Tracker :=
  let grown : Except Nat Tracker :=
    if t.fds.length = t.cap then
      if alloc_ok then .ok { t with cap := t.cap * 2 } else .error 1
    else .ok t
  match grown with
  | .error c => .error c
  | .ok t' => .ok { t' with
      fds := t'.fds ++ [{ fd := fd, events_pollin := true, events_pollout := false,
                          revents_pollin := false, revents_errhup := false }],
      fences := t'.fences ++ [{ frame_num := frame_num, start_ns := start_ns }] }

/-- Iterated `track` with successful allocation, used to state the
append-only growth law. -/
def track_many (t : Tracker) : List (Int × Nat × Nat) → Except Nat Tracker
  | [] => .ok t
  | (fd, fr, st) :: rest =>
    match t.track true fd fr st with
    | .error c => .error c
    | .ok t' => track_many t' rest

/-- Unsigned 64-bit subtraction `a - b` as computed by the C expression
`end_ns - fences[i].start_ns` on `uint64_t`. -/
def sub64 (a b : Nat) : Nat := (a + (2 ^ 64 - b % 2 ^ 64)) % 2 ^ 64

/-- Embedding of the reap/compaction loop of `main` (src/unnamed/part_000
lines 625-644) restricted to the entries at positions `1..len-1`.  The C
loop walks `i` upward; a non-ready entry is skipped (`++i`), a ready entry
is reaped (query `fence_timestamp`, `close`, print the latency line) and
removed by shifting every later entry down one slot (`--len`, `i`
unchanged).  That walk visits each entry exactly once in order, so it is
the following structural recursion; `end_ts` gives the completion
timestamp the kernel reports for a descriptor. -/
def reap_loop (end_ts : Int → Nat) :
    List pollfd → List fence_rec → List pollfd × List fence_rec × List (Nat × Nat)
  | f :: fs, m :: ms =>
    let (fs', ms', out) := reap_loop end_ts fs ms
    if f.revents_pollin then
      (fs', ms', (m.frame_num, sub64 (end_ts f.fd) m.start_ns) :: out)
    else
      (f :: fs', m :: ms', out)
  | fs, ms => (fs, ms, [])

/-- Full reap: the loop starts at `i = 1`, so position 0 (the display
socket) is never examined. -/
def reap (end_ts : Int → Nat) (fds : List pollfd) (fences : List fence_rec) :
    List pollfd × List fence_rec × List (Nat × Nat) :=
  match fds, fences with
  | f0 :: fs, m0 :: ms =>
    let (fs', ms', out) := reap_loop end_ts fs ms
    (f0 :: fs', m0 :: ms', out)
  | fds, fences => (fds, fences, [])

/-! ## ConnectionState and event dispatch

`struct wl_state` holds the close flag, the pending configure serial
(0 = none owed), the negotiated width/height and the outstanding
`wl_callback *frame`.  The callback pointer is modelled by the number of
live callback objects (0 = `NULL`); `frame_done` destroys the callback
and nulls the pointer, i.e. sets the count to 0. -/

structure WlState where
  close : Bool
  serial : Nat
  width : Int
  height : Int
  frame : Nat
deriving Repr, DecidableEq

/-- Protocol events a dispatch may deliver, with the listener each one
invokes (src/unnamed/part_000 lines 87-147, 183-188). -/
inductive Event where
  | xdg_configure (serial : Nat)
  | top_configure (w h : Int)
  | top_close
  | frame_done
  | ping
deriving Repr, DecidableEq

/-- Effect of dispatching one event: `xdg_base_configure` stores the
serial, `toplevel_configure` stores width/height, `toplevel_close` sets
the close flag, `frame_done` destroys the callback and clears the slot,
`xdg_ping` only replies with a pong. -/
def dispatch_event (wl : WlState) : Event → WlState
  | .xdg_configure s => { wl with serial := s }
  | .top_configure w h => { wl with width := w, height := h }
  | .top_close => { wl with close := true }
  | .frame_done => { wl with frame := 0 }
  | .ping => wl

/-- `wl_display_dispatch_pending`: run every queued event's listener in
order. -/
def dispatch_pending (wl : WlState) (evts : List Event) : WlState :=
  evts.foldl dispatch_event wl

/-! ## Configuration and the render phase -/

structure Config where
  unsynchronized : Bool
  fixed_size : Bool
  fixed_width : Int
  fixed_height : Int
  max_frames : Nat
  egl_has_fences : Bool
deriving Repr, DecidableEq

/-- Embedding of the resize/acknowledge block (src/unnamed/part_000 lines
525-540): if a configure serial is pending, apply the fixed or negotiated
size with the 500 fallback for a still-zero dimension, resize the EGL
window, `xdg_surface_ack_configure` the serial and clear it.  Returns the
new state and the list of serials acknowledged (empty or a singleton). -/
def resolve_resize (cfg : Config) (wl : WlState) : WlState × List Nat :=
  if wl.serial ≠ 0 then
    let w0 := if cfg.fixed_size then cfg.fixed_width else wl.width
    let h0 := if cfg.fixed_size then cfg.fixed_height else wl.height
    let w := if w0 = 0 then 500 else w0
    let h := if h0 = 0 then 500 else h0
    ({ wl with width := w, height := h, serial := 0 }, [wl.serial])
  else (wl, [])

/-- The FrameScheduler states named by the spec, read off the code's
render gate `if (unsynchronized || !wl_state.frame)`. -/
inductive SchedState where
  | Ready
  | PendingCallback
deriving Repr, DecidableEq

def sched_state (unsynchronized : Bool) (frame : Nat) : SchedState :=
  if unsynchronized || frame == 0 then .Ready else .PendingCallback

/-- The loop-carried state of `main`: connection state, the frame
counter, and the tracker (whose `fds` head is the display-socket entry
`fds[0]`). -/
structure MainState where
  wl : WlState
  frame_num : Nat
  tracker : Tracker
deriving Repr, DecidableEq

/-- Per-iteration environment: everything the kernel, the GPU and the
server decide during one pass of the loop. -/
structure IterEnv where
  /-- fence fd produced by `eglDupNativeFenceFDANDROID`. -/
  fence_fd : Int
  /-- CLOCK_MONOTONIC sample taken just before `eglSwapBuffers`. -/
  start_ns : Nat
  /-- whether `realloc` succeeds if growth is needed this iteration. -/
  alloc_ok : Bool
  /-- events already queued, making `wl_display_prepare_read` fail with
  EAGAIN until `wl_display_dispatch_pending` drains them. -/
  queued : List Event
  /-- outcome of the flush loop: final `wl_display_flush` return value,
  0 (drained), -1/EAGAIN, or -1/fatal errno. -/
  flush_drained : Bool
  flush_fatal : Bool
  /-- `poll` returned -1 with errno other than EINTR. -/
  poll_fatal : Bool
  /-- POLLERR/POLLHUP reported on `fds[0]`. -/
  sock_errhup : Bool
  /-- POLLIN reported on the tracked fence descriptors, by position. -/
  fence_ready : List Bool
  /-- events delivered by `wl_display_read_events` and dispatched. -/
  events : List Event
  /-- completion timestamp `fence_timestamp` yields per descriptor. -/
  end_ts : Int → Nat

/-- Set or clear the POLLOUT bit in `fds[0].events`. -/
def set_pollout (b : Bool) : List pollfd → List pollfd
  | [] => []
  | f :: fs => { f with events_pollout := b } :: fs

/-- What `poll` writes into `revents`: ERR/HUP on the socket entry,
POLLIN readiness on the fence entries. -/
def set_revents (errhup : Bool) (ready : List Bool) : List pollfd → List pollfd
  | [] => []
  | f :: fs => { f with revents_errhup := errhup } :: set_fence_revents fs ready
where
  set_fence_revents : List pollfd → List Bool → List pollfd
    | [], _ => []
    | f :: fs, r :: rs => { f with revents_pollin := r } :: set_fence_revents fs rs
    | f :: fs, [] => { f with revents_pollin := false } :: set_fence_revents fs []

/-- Embedding of the render block (src/unnamed/part_000 lines 514-586):
taken when `unsynchronized || !wl_state.frame`.  In synchronized mode it
registers exactly one new frame callback; then it resolves any pending
resize, draws, samples the clock, swaps, and if fences are supported
tracks the duplicated fence descriptor, finally incrementing
`frame_num`.  Returns the acknowledged serials; `Except` carries the
fatal exit code of an allocation failure. -/
def render_phase (cfg : Config) (env : IterEnv) (s : MainState) :
    Except Nat (MainState × List Nat) :=
  if cfg.unsynchronized || s.wl.frame == 0 then
    let wl1 := if ¬cfg.unsynchronized then { s.wl with frame := s.wl.frame + 1 } else s.wl
    let (wl2, acks) := resolve_resize cfg wl1
    if cfg.egl_has_fences then
      match s.tracker.track env.alloc_ok env.fence_fd s.frame_num env.start_ns with
      | .error c => .error c
      | .ok tr =>
        .ok ({ wl := wl2, frame_num := s.frame_num + 1, tracker := tr }, acks)
    else
      .ok ({ wl := wl2, frame_num := s.frame_num + 1, tracker := s.tracker }, acks)
  else
    .ok (s, [])

/-- Observable output of one iteration: serials acknowledged, latency
samples printed, and whether `wl_display_cancel_read` aborted the
read-intent transaction. -/
structure IterOut where
  acks : List Nat
  samples : List (Nat × Nat)
  cancel_read : Bool
deriving Repr, DecidableEq

/-- Result of one pass through the loop body. -/
inductive IterResult where
  /-- fell through to the next iteration. -/
  | cont (s : MainState) (out : IterOut)
  /-- `break`: the loop ends and teardown runs. -/
  | brk (s : MainState) (out : IterOut)
  /-- `return 1` out of `main` (allocation failure). -/
  | fatalExit (code : Nat)

/-- The state an `IterResult` carries, if the process did not exit. -/
def IterResult.state : IterResult → Option MainState
  | .cont s _ => some s
  | .brk s _ => some s
  | .fatalExit _ => none

/-- One pass of the main loop body (src/unnamed/part_000 lines 509-645):
render if the gate allows; drain-and-retry `wl_display_prepare_read`;
flush until drained (EAGAIN arms POLLOUT and continues, any other
failure cancels the read and breaks); `poll` (fatal error cancels and
breaks); POLLERR/POLLHUP on the socket cancels and breaks; otherwise
read and dispatch events, then reap completed fences. -/
def iterate (cfg : Config) (env : IterEnv) (s : MainState) : IterResult :=
  match render_phase cfg env s with
  | .error c => .fatalExit c
  | .ok (s1, acks) =>
    let wl2 := dispatch_pending s1.wl env.queued
    if env.flush_drained then
      iterate_post cfg env { s1 with wl := wl2 } acks false
    else if env.flush_fatal then
      .brk { s1 with wl := wl2 } ⟨acks, [], true⟩
    else
      iterate_post cfg env { s1 with wl := wl2 } acks true
where
  /-- continuation after the flush outcome: `pollout` is the new state of
  the POLLOUT bit in `fds[0].events`. -/
  iterate_post (cfg : Config) (env : IterEnv) (s : MainState) (acks : List Nat)
      (pollout : Bool) : IterResult :=
    let s2 := { s with tracker := { s.tracker with fds := set_pollout pollout s.tracker.fds } }
    if env.poll_fatal then
      .brk s2 ⟨acks, [], true⟩
    else
      let s3 := { s2 with tracker :=
        { s2.tracker with fds := set_revents env.sock_errhup env.fence_ready s2.tracker.fds } }
      if env.sock_errhup then
        .brk s3 ⟨acks, [], true⟩
      else
        let wl4 := dispatch_pending s3.wl env.events
        let (fds', fences', samples) := reap env.end_ts s3.tracker.fds s3.tracker.fences
        .cont { wl := wl4, frame_num := s3.frame_num,
                tracker := { s3.tracker with fds := fds', fences := fences' } }
             ⟨acks, samples, false⟩

/-- How a run of the loop ended. -/
inductive LoopExit where
  /-- the `while` condition became false. -/
  | normal
  /-- a `break` ended the loop. -/
  | broke
  /-- `return 1` (allocation failure). -/
  | fatal (code : Nat)
  /-- fuel ran out before the loop ended (the loop need not terminate). -/
  | fuelOut
deriving Repr, DecidableEq

/-- The main loop `while (!wl_state.close && frame_num < max_frames)`,
driven by a stream of per-iteration environments and bounded by fuel
(the loop itself need not terminate in synchronized mode). -/
def run_loop (cfg : Config) (envs : Nat → IterEnv) (i fuel : Nat) (s : MainState) :
    MainState × LoopExit :=
  if s.wl.close = false ∧ s.frame_num < cfg.max_frames then
    match fuel with
    | 0 => (s, .fuelOut)
    | fuel' + 1 =>
      match iterate cfg (envs i) s with
      | .cont s' _ => run_loop cfg envs (i + 1) fuel' s'
      | .brk s' _ => (s', .broke)
      | .fatalExit c => (s, .fatal c)
  else (s, .normal)
termination_by fuel
decreasing_by omega

/-! ## The two bounded retry loops (src/unnamed/part_000 lines 588-594)

`wl_display_prepare_read` fails with EAGAIN exactly while the default
queue still holds undispatched events, and `wl_display_dispatch_pending`
dispatches all of them; the client is single-threaded, so nothing
refills the queue between the two calls.  The retry loop therefore makes
one failing attempt at most: -/

/-- The loop `while (wl_display_prepare_read(...) != 0 && errno == EAGAIN)
wl_display_dispatch_pending(...)`, returning the resulting connection
state and the number of `wl_display_prepare_read` calls made. -/
def prepare_read_loop (wl : WlState) (queued : List Event) : WlState × Nat :=
  if queued.isEmpty then (wl, 1)
  else (dispatch_pending wl queued, 2)

/-- The loop `do { ret = wl_display_flush(...); } while (ret > 0)`,
counting `wl_display_flush` calls.  `b` is the number of buffered
outgoing bytes; `accept k` is how many bytes the socket accepts at the
`k`-th call (0 = the call returns -1, or 0 once the buffer is empty).
Every positive return strictly shrinks the buffer. -/
def flush_loop (accept : Nat → Nat) (k : Nat) (b : Nat) : Nat :=
  if h : b = 0 then 1
  else if h2 : accept k = 0 then 1
  else 1 + flush_loop accept (k + 1) (b - min (accept k) b)
termination_by b
decreasing_by omega

/-! ## Helper lemmas: the timestamp accumulation loop -/

lemma fence_timestamp_loop_eq_foldl (ts : List Nat) (acc : Nat) :
    fence_timestamp_loop ts acc = ts.foldl max acc := by
  induction ts generalizing acc with
  | nil => rfl
  | cons t ts ih =>
    rw [fence_timestamp_loop, ih, List.foldl_cons]
    congr 1
    split <;> omega

lemma fence_timestamp_loop_acc_le (ts : List Nat) (acc : Nat) :
    acc ≤ fence_timestamp_loop ts acc := by
  induction ts generalizing acc with
  | nil => exact Nat.le_refl _
  | cons t ts ih =>
    rw [fence_timestamp_loop]
    refine Nat.le_trans ?_ (ih _)
    split <;> omega

lemma fence_timestamp_loop_mem_le (ts : List Nat) (acc t : Nat) (h : t ∈ ts) :
    t ≤ fence_timestamp_loop ts acc := by
  induction ts generalizing acc with
  | nil => cases h
  | cons u ts ih =>
    rw [fence_timestamp_loop]
    rcases List.mem_cons.mp h with rfl | h'
    · refine Nat.le_trans ?_ (fence_timestamp_loop_acc_le _ _)
      split <;> omega
    · exact ih _ h'

lemma fence_timestamp_loop_mem_or (ts : List Nat) (acc : Nat) :
    fence_timestamp_loop ts acc ∈ ts ∨ fence_timestamp_loop ts acc = acc := by
  induction ts generalizing acc with
  | nil => exact Or.inr rfl
  | cons t ts ih =>
    rw [fence_timestamp_loop]
    rcases ih (if acc < t then t else acc) with h | h
    · exact Or.inl (List.mem_cons_of_mem _ h)
    · rw [h]
      split
      · exact Or.inl (List.mem_cons_self _ _)
      · exact Or.inr rfl

/-- C4: for every fence descriptor whose kernel query succeeds,
`fence_timestamp` returns the maximum of the completion-point
timestamps reported by the second query (it bounds every reported
timestamp from above and is itself one of them unless the sentinel 0);
for a single point it is that point's timestamp; if either kernel query
fails it returns the sentinel 0; and the three textual copies of the
function (both variants in src/unnamed/part_000 and src/main.c) compute
the same function. -/
theorem fence_timestamp_spec :
    (∀ q : FenceQuery, fence_timestamp q = fence_timestamp_v2 q ∧
      fence_timestamp q = fence_timestamp_main q)
    ∧ (∀ n : Nat, ∀ ts : List Nat, ∀ t ∈ ts,
        t ≤ fence_timestamp ⟨some n, some ts⟩)
    ∧ (∀ n : Nat, ∀ ts : List Nat,
        fence_timestamp ⟨some n, some ts⟩ ∈ ts ∨
          fence_timestamp ⟨some n, some ts⟩ = 0)
    ∧ (∀ n t : Nat, fence_timestamp ⟨some n, some [t]⟩ = t)
    ∧ (∀ snd : Option (List Nat), fence_timestamp ⟨none, snd⟩ = 0)
    ∧ (∀ n : Nat, fence_timestamp ⟨some n, none⟩ = 0) := by
  refine ⟨fun q => ⟨rfl, rfl⟩, ?_, ?_, ?_, fun _ => rfl, fun _ => rfl⟩
  · intro n ts t ht
    exact fence_timestamp_loop_mem_le ts 0 t ht
  · intro n ts
    exact fence_timestamp_loop_mem_or ts 0
  · intro n t
    show fence_timestamp_loop [t] 0 = t
    rw [fence_timestamp_loop, fence_timestamp_loop]
    split <;> omega

/-- Concrete instance discharging the hypotheses of `fence_timestamp_spec`:
the maximum of the three synthetic points {3, 5, 2} bounds the member 5. -/
theorem fence_timestamp_spec_witness :
    5 ∈ [3, 5, 2] ∧ 5 ≤ fence_timestamp ⟨some 3, some [3, 5, 2]⟩ :=
  ⟨by decide, fence_timestamp_spec.2.1 3 [3, 5, 2] 5 (by decide)⟩

/-! ## Helper lemmas: the reap loop -/

/-- The metadata record kept by the reap walk for a surviving entry. -/
def reap_keep (p : pollfd × fence_rec) : Option fence_rec :=
  if p.1.revents_pollin then none else some p.2

/-- The latency sample the reap walk emits for a reaped entry. -/
def reap_sample (end_ts : Int → Nat) (p : pollfd × fence_rec) : Option (Nat × Nat) :=
  if p.1.revents_pollin then some (p.2.frame_num, sub64 (end_ts p.1.fd) p.2.start_ns)
  else none

lemma reap_loop_eq (end_ts : Int → Nat) :
    ∀ (fs : List pollfd) (ms : List fence_rec), fs.length = ms.length →
    reap_loop end_ts fs ms =
      (fs.filter (fun f => !f.revents_pollin),
       (fs.zip ms).filterMap reap_keep,
       (fs.zip ms).filterMap (reap_sample end_ts))
  | [], ms, h => by
    have : ms = [] := List.eq_nil_of_length_eq_zero h.symm
    subst this; rfl
  | f :: fs, m :: ms, h => by
    have h' : fs.length = ms.length := by simpa using h
    rw [reap_loop, reap_loop_eq end_ts fs ms h']
    by_cases hr : f.revents_pollin = true <;>
      simp [hr, List.zip_cons_cons, List.filterMap_cons, reap_keep, reap_sample]
  | f :: fs, [], h => by simp at h

lemma filter_not_length_add (fs : List pollfd) :
    (fs.filter (fun f => !f.revents_pollin)).length +
      (fs.filter (fun f => f.revents_pollin)).length = fs.length := by
  induction fs with
  | nil => rfl
  | cons f fs ih =>
    by_cases hr : f.revents_pollin = true <;>
      simp [List.filter_cons, hr] <;> omega

lemma zip_filterMap_keep_length :
    ∀ (fs : List pollfd) (ms : List fence_rec), fs.length = ms.length →
    ((fs.zip ms).filterMap reap_keep).length =
      (fs.filter (fun f => !f.revents_pollin)).length
  | [], ms, _ => by simp
  | f :: fs, m :: ms, h => by
    have h' : fs.length = ms.length := by simpa using h
    by_cases hr : f.revents_pollin = true <;>
      simp [List.zip_cons_cons, List.filterMap_cons, List.filter_cons, reap_keep, hr,
        zip_filterMap_keep_length fs ms h']
  | f :: fs, [], h => by simp at h

lemma zip_filterMap_sample_length (end_ts : Int → Nat) :
    ∀ (fs : List pollfd) (ms : List fence_rec), fs.length = ms.length →
    ((fs.zip ms).filterMap (reap_sample end_ts)).length =
      (fs.filter (fun f => f.revents_pollin)).length
  | [], ms, _ => by simp
  | f :: fs, m :: ms, h => by
    have h' : fs.length = ms.length := by simpa using h
    by_cases hr : f.revents_pollin = true <;>
      simp [List.zip_cons_cons, List.filterMap_cons, List.filter_cons, reap_sample, hr,
        zip_filterMap_sample_length end_ts fs ms h']
  | f :: fs, [], h => by simp at h

/-- C1: on a tracker state whose two parallel collections have equal
length and position 0 holding the connection socket, reaping the ready
non-zero positions removes exactly the ready entries: position 0 is
returned untouched at the head of both collections, the surviving
entries are the non-ready ones in their original relative order (a
`filter`), both lengths shrink by exactly `N` (the number of ready
positions), and exactly one latency sample is emitted per reaped
entry. -/
theorem reap_spec (end_ts : Int → Nat) (f0 : pollfd) (m0 : fence_rec)
    (fs : List pollfd) (ms : List fence_rec) (h : fs.length = ms.length) :
    reap end_ts (f0 :: fs) (m0 :: ms) =
      (f0 :: fs.filter (fun f => !f.revents_pollin),
       m0 :: (fs.zip ms).filterMap reap_keep,
       (fs.zip ms).filterMap (reap_sample end_ts))
    ∧ (reap end_ts (f0 :: fs) (m0 :: ms)).1.length +
        (fs.filter (fun f => f.revents_pollin)).length = (f0 :: fs).length
    ∧ (reap end_ts (f0 :: fs) (m0 :: ms)).2.1.length +
        (fs.filter (fun f => f.revents_pollin)).length = (m0 :: ms).length
    ∧ (reap end_ts (f0 :: fs) (m0 :: ms)).2.2.length =
        (fs.filter (fun f => f.revents_pollin)).length := by
  have hmain : reap end_ts (f0 :: fs) (m0 :: ms) =
      (f0 :: fs.filter (fun f => !f.revents_pollin),
       m0 :: (fs.zip ms).filterMap reap_keep,
       (fs.zip ms).filterMap (reap_sample end_ts)) := by
    rw [reap, reap_loop_eq end_ts fs ms h]
  refine ⟨hmain, ?_, ?_, ?_⟩
  · rw [hmain]
    have := filter_not_length_add fs
    simp only [List.length_cons]
    omega
  · rw [hmain]
    have h1 := zip_filterMap_keep_length fs ms h
    have h2 := filter_not_length_add fs
    simp only [List.length_cons]
    omega
  · rw [hmain]
    exact zip_filterMap_sample_length end_ts fs ms h

/-- Concrete instance discharging the hypothesis of `reap_spec`: the
spec's scenario — frames [3,4,5] at positions [1,2,3], position 2 ready —
reaps exactly frame 4, leaving frames [3,5] with one sample emitted. -/
theorem reap_spec_witness :
    ([⟨10, true, false, false, false⟩, ⟨11, true, false, true, false⟩,
        ⟨12, true, false, false, false⟩] : List pollfd).length =
      ([⟨3, 100⟩, ⟨4, 200⟩, ⟨5, 300⟩] : List fence_rec).length
    ∧ (reap (fun _ => 1200)
        [⟨0, true, true, false, false⟩, ⟨10, true, false, false, false⟩,
         ⟨11, true, false, true, false⟩, ⟨12, true, false, false, false⟩]
        [⟨0, 0⟩, ⟨3, 100⟩, ⟨4, 200⟩, ⟨5, 300⟩]).2.1 =
      [⟨0, 0⟩, ⟨3, 100⟩, ⟨5, 300⟩]
    ∧ (reap (fun _ => 1200)
        [⟨0, true, true, false, false⟩, ⟨10, true, false, false, false⟩,
         ⟨11, true, false, true, false⟩, ⟨12, true, false, false, false⟩]
        [⟨0, 0⟩, ⟨3, 100⟩, ⟨4, 200⟩, ⟨5, 300⟩]).2.2.length = 1 := by
  have h := reap_spec (fun _ => 1200) ⟨0, true, true, false, false⟩ ⟨0, 0⟩
    [⟨10, true, false, false, false⟩, ⟨11, true, false, true, false⟩,
     ⟨12, true, false, false, false⟩]
    [⟨3, 100⟩, ⟨4, 200⟩, ⟨5, 300⟩] (by decide)
  refine ⟨by decide, ?_, ?_⟩
  · rw [h.1]; decide
  · rw [h.1]; decide

/-! ## Helper lemmas: tracking appends -/

/-- The `pollfd` entry written for a freshly duplicated fence descriptor
(`fds[len].fd = ...; fds[len].events = POLLIN`). -/
def track_entry (fd : Int) : pollfd :=
  { fd := fd, events_pollin := true, events_pollout := false,
    revents_pollin := false, revents_errhup := false }

lemma track_true_ok (t : Tracker) (fd : Int) (fr st : Nat) :
    t.track true fd fr st =
      .ok { cap := if t.fds.length = t.cap then t.cap * 2 else t.cap,
            fds := t.fds ++ [track_entry fd],
            fences := t.fences ++ [{ frame_num := fr, start_ns := st }] } := by
  rw [Tracker.track]
  by_cases h : t.fds.length = t.cap <;> simp [h, track_entry]

lemma track_many_append :
    ∀ (recs : List (Int × Nat × Nat)) (t t' : Tracker),
    track_many t recs = .ok t' →
    t'.fences = t.fences ++ recs.map (fun r => { frame_num := r.2.1, start_ns := r.2.2 }) ∧
    t'.fds = t.fds ++ recs.map (fun r => track_entry r.1)
  | [], t, t', h => by
    cases h
    simp
  | (fd, fr, st) :: rest, t, t', h => by
    rw [track_many, track_true_ok] at h
    have := track_many_append rest _ t' h
    simpa using this

/-- The `fds[0]` entry: the display socket, initially polled for
POLLIN | POLLOUT (fd value 3 chosen arbitrarily for concrete instances). -/
def socket_entry : pollfd :=
  { fd := 3, events_pollin := true, events_pollout := true,
    revents_pollin := false, revents_errhup := false }

/-- The tracker right after initialization: `len = 1`, `cap = 10`,
position 0 holding the display socket and zeroed metadata (`calloc`). -/
def init_tracker : Tracker :=
  { cap := 10, fds := [socket_entry], fences := [{ frame_num := 0, start_ns := 0 }] }

/-- Eleven concrete `(descriptor, frame_id, submit_time)` records for the
capacity-doubling scenario. -/
def recs11 : List (Int × Nat × Nat) :=
  [(100, 0, 1000), (101, 1, 1001), (102, 2, 1002), (103, 3, 1003),
   (104, 4, 1004), (105, 5, 1005), (106, 6, 1006), (107, 7, 1007),
   (108, 8, 1008), (109, 9, 1009), (110, 10, 1010)]

/-- C2: `track` appends the record at the next free slot (below capacity
both collections gain exactly the new entry and capacity is unchanged;
at capacity the capacity of both backing collections doubles in lockstep
before the append); any number of successful `track` calls extends the
metadata collection by exactly the given records in order — none lost or
duplicated, each retrievable with its original `(frame_id, submit_time)`
— with the descriptor collection growing in lockstep; a tracker of
capacity 10 holding the reserved socket entry reaches capacity 20 after
11 calls with all 11 entries intact; and an allocation failure during
growth makes `main` return the non-zero exit code 1. -/
theorem track_spec :
    (∀ (t : Tracker) (ok : Bool) (fd : Int) (fr st : Nat), t.fds.length ≠ t.cap →
      t.track ok fd fr st =
        .ok { cap := t.cap, fds := t.fds ++ [track_entry fd],
              fences := t.fences ++ [{ frame_num := fr, start_ns := st }] })
    ∧ (∀ (t : Tracker) (fd : Int) (fr st : Nat), t.fds.length = t.cap →
      t.track true fd fr st =
        .ok { cap := t.cap * 2, fds := t.fds ++ [track_entry fd],
              fences := t.fences ++ [{ frame_num := fr, start_ns := st }] })
    ∧ (∀ (t : Tracker) (fd : Int) (fr st : Nat), t.fds.length = t.cap →
      t.track false fd fr st = .error 1 ∧ (1 : Nat) ≠ 0)
    ∧ (∀ (recs : List (Int × Nat × Nat)) (t t' : Tracker),
      track_many t recs = .ok t' →
      t'.fences = t.fences ++ recs.map (fun r => { frame_num := r.2.1, start_ns := r.2.2 }) ∧
      t'.fds = t.fds ++ recs.map (fun r => track_entry r.1))
    ∧ (track_many init_tracker recs11).map Tracker.cap = .ok 20
    ∧ (track_many init_tracker recs11).map Tracker.fences =
      .ok ({ frame_num := 0, start_ns := 0 } ::
        recs11.map (fun r => { frame_num := r.2.1, start_ns := r.2.2 })) := by
  refine ⟨?_, ?_, ?_, track_many_append, rfl, rfl⟩
  · intro t ok fd fr st h
    rw [Tracker.track]
    simp [h, track_entry]
  · intro t fd fr st h
    rw [Tracker.track]
    simp [h, track_entry]
  · intro t fd fr st h
    rw [Tracker.track]
    simp [h]

/-- Concrete instance discharging the hypotheses of `track_spec`: a
full tracker (length 1 = capacity 1) rejects a failed reallocation with
exit code 1. -/
theorem track_spec_witness :
    (Tracker.mk 1 [socket_entry] [{ frame_num := 0, start_ns := 0 }]).fds.length =
      (Tracker.mk 1 [socket_entry] [{ frame_num := 0, start_ns := 0 }]).cap
    ∧ (Tracker.mk 1 [socket_entry] [{ frame_num := 0, start_ns := 0 }]).track
        false 7 1 2 = .error 1 :=
  ⟨by decide,
   (track_spec.2.2.1 (Tracker.mk 1 [socket_entry] [{ frame_num := 0, start_ns := 0 }])
      7 1 2 (by decide)).1⟩

/-! ## Helper lemmas: render phase and dispatch -/

lemma track_ok_parts (t t' : Tracker) (ok : Bool) (fd : Int) (fr st : Nat)
    (h : t.track ok fd fr st = .ok t') :
    t'.fences = t.fences ++ [{ frame_num := fr, start_ns := st }] ∧
    t'.fds = t.fds ++ [track_entry fd] := by
  rw [Tracker.track] at h
  by_cases hc : t.fds.length = t.cap
  · cases ok <;> simp [hc] at h <;> simp [← h, track_entry]
  · simp [hc] at h
    simp [← h, track_entry]

lemma render_phase_rejected (cfg : Config) (env : IterEnv) (s : MainState)
    (h1 : cfg.unsynchronized = false) (h2 : s.wl.frame ≠ 0) :
    render_phase cfg env s = .ok (s, []) := by
  have hb : (s.wl.frame == 0) = false := by simpa using h2
  rw [render_phase]
  simp [h1, hb]

lemma render_phase_ok_char (cfg : Config) (env : IterEnv) (s s1 : MainState)
    (acks : List Nat) (h : render_phase cfg env s = .ok (s1, acks))
    (hgate : cfg.unsynchronized = true ∨ s.wl.frame = 0) :
    s1.wl = (resolve_resize cfg (if ¬cfg.unsynchronized then
      { s.wl with frame := s.wl.frame + 1 } else s.wl)).1 ∧
    acks = (resolve_resize cfg (if ¬cfg.unsynchronized then
      { s.wl with frame := s.wl.frame + 1 } else s.wl)).2 ∧
    s1.frame_num = s.frame_num + 1 ∧
    (s1.tracker = s.tracker ∨
      (s1.tracker.fences = s.tracker.fences ++
        [{ frame_num := s.frame_num, start_ns := env.start_ns }] ∧
       s1.tracker.fds = s.tracker.fds ++ [track_entry env.fence_fd])) := by
  have hg : (cfg.unsynchronized || s.wl.frame == 0) = true := by
    rcases hgate with h' | h' <;> simp [h']
  rw [render_phase, hg] at h
  simp only [if_true] at h
  rcases hrr : resolve_resize cfg (if ¬cfg.unsynchronized then
      { s.wl with frame := s.wl.frame + 1 } else s.wl) with ⟨wl2, acks2⟩
  rw [hrr] at h
  by_cases hf : cfg.egl_has_fences = true
  · rw [if_pos hf] at h
    rcases htr : s.tracker.track env.alloc_ok env.fence_fd s.frame_num env.start_ns with c | tr
    · rw [htr] at h
      cases h
    · rw [htr] at h
      cases h
      have := track_ok_parts _ _ _ _ _ _ htr
      exact ⟨rfl, rfl, rfl, Or.inr this⟩
  · rw [if_neg hf] at h
    cases h
    exact ⟨rfl, rfl, rfl, Or.inl rfl⟩

lemma render_phase_ok_of_alloc (cfg : Config) (env : IterEnv) (s : MainState)
    (halloc : env.alloc_ok = true ∨ cfg.egl_has_fences = false) :
    ∃ s1 acks, render_phase cfg env s = .ok (s1, acks) := by
  rw [render_phase]
  by_cases hg : (cfg.unsynchronized || s.wl.frame == 0) = true
  · rw [hg]
    simp only [if_true]
    rcases hrr : resolve_resize cfg (if ¬cfg.unsynchronized then
        { s.wl with frame := s.wl.frame + 1 } else s.wl) with ⟨wl2, acks2⟩
    by_cases hf : cfg.egl_has_fences = true
    · have hok : env.alloc_ok = true := by
        rcases halloc with h' | h'
        · exact h'
        · rw [hf] at h'; cases h'
      rw [if_pos hf, hok, track_true_ok]
      exact ⟨_, _, rfl⟩
    · rw [if_neg hf]
      exact ⟨_, _, rfl⟩
  · rw [Bool.not_eq_true] at hg
    rw [hg]
    simp only [Bool.false_eq_true, if_false]
    exact ⟨_, _, rfl⟩

lemma dispatch_event_close (wl : WlState) (e : Event) (h : e ≠ .top_close) :
    (dispatch_event wl e).close = wl.close := by
  cases e <;> simp [dispatch_event] at h ⊢

lemma dispatch_pending_close (evts : List Event) (wl : WlState)
    (h : Event.top_close ∉ evts) :
    (dispatch_pending wl evts).close = wl.close := by
  induction evts generalizing wl with
  | nil => rfl
  | cons e evts ih =>
    rw [dispatch_pending, List.foldl_cons]
    rw [List.mem_cons, not_or] at h
    rw [← dispatch_pending]
    rw [ih _ h.2, dispatch_event_close _ _ (fun he => h.1 he.symm)]

lemma dispatch_event_frame_le (wl : WlState) (e : Event) :
    (dispatch_event wl e).frame ≤ wl.frame := by
  cases e <;> simp [dispatch_event]

lemma dispatch_pending_frame_le (evts : List Event) (wl : WlState) :
    (dispatch_pending wl evts).frame ≤ wl.frame := by
  induction evts generalizing wl with
  | nil => exact Nat.le_refl _
  | cons e evts ih =>
    rw [dispatch_pending, List.foldl_cons, ← dispatch_pending]
    exact Nat.le_trans (ih _) (dispatch_event_frame_le wl e)

lemma resolve_resize_frame (cfg : Config) (wl : WlState) :
    (resolve_resize cfg wl).1.frame = wl.frame := by
  rw [resolve_resize]
  split <;> rfl

lemma resolve_resize_close (cfg : Config) (wl : WlState) :
    (resolve_resize cfg wl).1.close = wl.close := by
  rw [resolve_resize]
  split <;> rfl

/-- C7: the resize/acknowledge handshake.  When a non-zero configure
serial is pending, the next submission resolves it exactly once: it
applies the negotiated (or fixed) width/height with 500 as the fallback
for a dimension still 0, acknowledges exactly that serial, and clears
the stored serial to 0; no acknowledgment is emitted while the stored
serial is 0, so a resolved serial is never acknowledged twice; and one
pass of the render phase acknowledges the pending serial exactly once
(or not at all when none is pending or submission is rejected). -/
theorem resize_ack_spec (cfg : Config) :
    (∀ wl : WlState, wl.serial ≠ 0 →
      resolve_resize cfg wl =
        ({ wl with
            width := if (if cfg.fixed_size then cfg.fixed_width else wl.width) = 0
                     then 500 else (if cfg.fixed_size then cfg.fixed_width else wl.width),
            height := if (if cfg.fixed_size then cfg.fixed_height else wl.height) = 0
                      then 500 else (if cfg.fixed_size then cfg.fixed_height else wl.height),
            serial := 0 }, [wl.serial]))
    ∧ (∀ wl : WlState, wl.serial = 0 → resolve_resize cfg wl = (wl, []))
    ∧ (∀ wl : WlState, (resolve_resize cfg wl).1.serial = 0)
    ∧ (∀ wl : WlState,
        resolve_resize cfg (resolve_resize cfg wl).1 = ((resolve_resize cfg wl).1, []))
    ∧ (∀ wl : WlState, wl.serial ≠ 0 → cfg.fixed_size = false →
        wl.width = 0 → wl.height = 0 →
        (resolve_resize cfg wl).1.width = 500 ∧ (resolve_resize cfg wl).1.height = 500)
    ∧ (∀ (env : IterEnv) (s s1 : MainState) (acks : List Nat),
        render_phase cfg env s = .ok (s1, acks) →
        (s.wl.serial = 0 → acks = []) ∧
        (s.wl.serial ≠ 0 → (cfg.unsynchronized = true ∨ s.wl.frame = 0) →
          acks = [s.wl.serial] ∧ s1.wl.serial = 0)) := by
  have hz : ∀ wl : WlState, wl.serial = 0 → resolve_resize cfg wl = (wl, []) := by
    intro wl h
    rw [resolve_resize]
    simp [h]
  have hnz : ∀ wl : WlState, wl.serial ≠ 0 →
      resolve_resize cfg wl =
        ({ wl with
            width := if (if cfg.fixed_size then cfg.fixed_width else wl.width) = 0
                     then 500 else (if cfg.fixed_size then cfg.fixed_width else wl.width),
            height := if (if cfg.fixed_size then cfg.fixed_height else wl.height) = 0
                      then 500 else (if cfg.fixed_size then cfg.fixed_height else wl.height),
            serial := 0 }, [wl.serial]) := by
    intro wl h
    rw [resolve_resize]
    simp [h]
  have hser : ∀ wl : WlState, (resolve_resize cfg wl).1.serial = 0 := by
    intro wl
    by_cases h : wl.serial = 0
    · rw [hz wl h]; exact h
    · rw [hnz wl h]
  refine ⟨hnz, hz, hser, ?_, ?_, ?_⟩
  · intro wl
    exact hz _ (hser wl)
  · intro wl h hfix hw hh
    rw [hnz wl h]
    simp [hfix, hw, hh]
  · intro env s s1 acks h
    constructor
    · intro hs0
      by_cases hgate : cfg.unsynchronized = true ∨ s.wl.frame = 0
      · have hc := render_phase_ok_char cfg env s s1 acks h hgate
        have : (if ¬cfg.unsynchronized then { s.wl with frame := s.wl.frame + 1 }
            else s.wl).serial = 0 := by
          split <;> exact hs0
        rw [hc.2.1, hz _ this]
      · push_neg at hgate
        rw [render_phase_rejected cfg env s
          (by simpa using hgate.1) hgate.2] at h
        cases h
        rfl
    · intro hs hgate
      have hc := render_phase_ok_char cfg env s s1 acks h hgate
      have hserial : (if ¬cfg.unsynchronized then { s.wl with frame := s.wl.frame + 1 }
          else s.wl).serial = s.wl.serial := by
        split <;> rfl
      constructor
      · rw [hc.2.1, hnz]
        · rw [hserial]
        · rw [hserial]; exact hs
      · rw [hc.1]
        exact hser _

/-- Concrete instance discharging the hypotheses of `resize_ack_spec`:
a pending serial 7 with unnegotiated dimensions is acknowledged once,
cleared, and the drawable defaults to 500x500. -/
theorem resize_ack_spec_witness :
    (7 : Nat) ≠ 0 ∧ (Config.mk false false 0 0 100 true).fixed_size = false
    ∧ (0 : Int) = 0
    ∧ (resolve_resize (Config.mk false false 0 0 100 true)
        (WlState.mk false 7 0 0 0)).1.width = 500
    ∧ (resolve_resize (Config.mk false false 0 0 100 true)
        (WlState.mk false 7 0 0 0)).1.height = 500 := by
  refine ⟨by decide, rfl, rfl, ?_⟩
  exact (resize_ack_spec (Config.mk false false 0 0 100 true)).2.2.2.2.1
    (WlState.mk false 7 0 0 0) (by decide) rfl rfl rfl

/-- C8: both intra-iteration retries are bounded.  The read-intent retry
(`wl_display_prepare_read` failing with EAGAIN while buffered events are
undispatched, then `wl_display_dispatch_pending`) makes at most two
`prepare_read` attempts, and the flush-until-drained retry makes at most
`b + 1` `wl_display_flush` calls when `b` outgoing bytes are buffered,
since every positive return strictly shrinks the buffer. -/
theorem bounded_retries :
    (∀ (wl : WlState) (queued : List Event), (prepare_read_loop wl queued).2 ≤ 2)
    ∧ (∀ (accept : Nat → Nat) (k b : Nat), flush_loop accept k b ≤ b + 1) := by
  constructor
  · intro wl queued
    rw [prepare_read_loop]
    split
    · exact Nat.le_of_lt (by omega)
    · exact Nat.le_refl _
  · intro accept k b
    induction b using Nat.strong_induction_on generalizing k with
    | _ b ih =>
      rw [flush_loop]
      split
      · omega
      · split
        · omega
        · rename_i hb ha
          have hlt : b - min (accept k) b < b := by omega
          have := ih _ hlt (k + 1)
          omega

/-! ## Helper lemmas: unfolding one loop iteration -/

lemma iterate_eq_fatalExit (cfg : Config) (env : IterEnv) (s : MainState) (c : Nat)
    (hr : render_phase cfg env s = .error c) :
    iterate cfg env s = .fatalExit c := by
  rw [iterate, hr]

lemma iterate_eq_flush_fatal (cfg : Config) (env : IterEnv) (s s1 : MainState)
    (acks : List Nat) (hr : render_phase cfg env s = .ok (s1, acks))
    (h1 : env.flush_drained = false) (h2 : env.flush_fatal = true) :
    iterate cfg env s =
      .brk { s1 with wl := dispatch_pending s1.wl env.queued }
        { acks := acks, samples := [], cancel_read := true } := by
  rw [iterate, hr]
  simp [h1, h2]

lemma iterate_eq_post (cfg : Config) (env : IterEnv) (s s1 : MainState)
    (acks : List Nat) (hr : render_phase cfg env s = .ok (s1, acks))
    (hflush : env.flush_drained = true ∨ env.flush_fatal = false) :
    iterate cfg env s =
      iterate.iterate_post cfg env { s1 with wl := dispatch_pending s1.wl env.queued }
        acks (!env.flush_drained) := by
  rw [iterate, hr]
  by_cases hd : env.flush_drained = true
  · simp [hd]
  · have hd' : env.flush_drained = false := by simpa using hd
    have hf : env.flush_fatal = false := by
      rcases hflush with h | h
      · rw [hd'] at h; cases h
      · exact h
    simp [hd', hf]

lemma iterate_post_eq_poll_fatal (cfg : Config) (env : IterEnv) (s : MainState)
    (acks : List Nat) (b : Bool) (hp : env.poll_fatal = true) :
    iterate.iterate_post cfg env s acks b =
      .brk { s with tracker := { s.tracker with fds := set_pollout b s.tracker.fds } }
        { acks := acks, samples := [], cancel_read := true } := by
  rw [iterate.iterate_post]
  simp [hp]

lemma iterate_post_eq_errhup (cfg : Config) (env : IterEnv) (s : MainState)
    (acks : List Nat) (b : Bool) (hp : env.poll_fatal = false)
    (hh : env.sock_errhup = true) :
    iterate.iterate_post cfg env s acks b =
      .brk { s with tracker := { s.tracker with
          fds := set_revents env.sock_errhup env.fence_ready (set_pollout b s.tracker.fds) } }
        { acks := acks, samples := [], cancel_read := true } := by
  rw [iterate.iterate_post]
  simp [hp, hh]

lemma iterate_post_eq_cont (cfg : Config) (env : IterEnv) (s : MainState)
    (acks : List Nat) (b : Bool) (hp : env.poll_fatal = false)
    (hh : env.sock_errhup = false) :
    iterate.iterate_post cfg env s acks b =
      .cont { wl := dispatch_pending s.wl env.events, frame_num := s.frame_num,
              tracker := { s.tracker with
                fds := (reap env.end_ts
                  (set_revents env.sock_errhup env.fence_ready (set_pollout b s.tracker.fds))
                  s.tracker.fences).1,
                fences := (reap env.end_ts
                  (set_revents env.sock_errhup env.fence_ready (set_pollout b s.tracker.fds))
                  s.tracker.fences).2.1 } }
        { acks := acks,
          samples := (reap env.end_ts
            (set_revents env.sock_errhup env.fence_ready (set_pollout b s.tracker.fds))
            s.tracker.fences).2.2,
          cancel_read := false } := by
  rw [iterate.iterate_post]
  simp [hp, hh]

lemma iterate_post_state_char (cfg : Config) (env : IterEnv) (s : MainState)
    (acks : List Nat) (b : Bool) (s' : MainState)
    (h : (iterate.iterate_post cfg env s acks b).state = some s') :
    s'.wl.frame ≤ s.wl.frame ∧ s'.frame_num = s.frame_num ∧
    (Event.top_close ∉ env.events → s'.wl.close = s.wl.close) := by
  by_cases hp : env.poll_fatal = true
  · rw [iterate_post_eq_poll_fatal cfg env s acks b hp] at h
    rw [IterResult.state] at h
    cases h
    exact ⟨Nat.le_refl _, rfl, fun _ => rfl⟩
  · have hp' : env.poll_fatal = false := by simpa using hp
    by_cases hh : env.sock_errhup = true
    · rw [iterate_post_eq_errhup cfg env s acks b hp' hh] at h
      rw [IterResult.state] at h
      cases h
      exact ⟨Nat.le_refl _, rfl, fun _ => rfl⟩
    · have hh' : env.sock_errhup = false := by simpa using hh
      rw [iterate_post_eq_cont cfg env s acks b hp' hh'] at h
      rw [IterResult.state] at h
      cases h
      exact ⟨dispatch_pending_frame_le _ _, rfl,
        fun hc => dispatch_pending_close _ _ hc⟩

lemma iterate_ok_char (cfg : Config) (env : IterEnv) (s s' : MainState)
    (h : (iterate cfg env s).state = some s') :
    ∃ s1 acks, render_phase cfg env s = .ok (s1, acks) ∧
      s'.wl.frame ≤ s1.wl.frame ∧ s'.frame_num = s1.frame_num ∧
      (Event.top_close ∉ env.queued → Event.top_close ∉ env.events →
        s'.wl.close = s1.wl.close) := by
  rcases hr : render_phase cfg env s with c | ⟨s1, acks⟩
  · rw [iterate_eq_fatalExit cfg env s c hr, IterResult.state] at h
    cases h
  · refine ⟨s1, acks, rfl, ?_⟩
    by_cases hff : env.flush_drained = false ∧ env.flush_fatal = true
    · rw [iterate_eq_flush_fatal cfg env s s1 acks hr hff.1 hff.2,
        IterResult.state] at h
      cases h
      exact ⟨dispatch_pending_frame_le _ _, rfl,
        fun hq _ => dispatch_pending_close _ _ hq⟩
    · have hflush : env.flush_drained = true ∨ env.flush_fatal = false := by
        by_cases hd : env.flush_drained = true
        · exact Or.inl hd
        · refine Or.inr ?_
          rcases Bool.eq_false_or_eq_true env.flush_fatal with h' | h'
          · exact absurd ⟨by simpa using hd, h'⟩ hff
          · exact h'
      rw [iterate_eq_post cfg env s s1 acks hr hflush] at h
      have hc := iterate_post_state_char cfg env _ acks _ s' h
      refine ⟨Nat.le_trans hc.1 (dispatch_pending_frame_le _ _), hc.2.1, ?_⟩
      intro hq he
      rw [hc.2.2 he]
      exact dispatch_pending_close _ _ hq

/-- Environments in which no fatal transport, poll, or allocation error
occurs and the server never requests a close. -/
def benign_env (env : IterEnv) : Prop :=
  env.flush_fatal = false ∧ env.poll_fatal = false ∧ env.sock_errhup = false ∧
  env.alloc_ok = true ∧ Event.top_close ∉ env.queued ∧ Event.top_close ∉ env.events

lemma iterate_cont_of_benign (cfg : Config) (env : IterEnv) (s : MainState)
    (hb : benign_env env) :
    ∃ s' out, iterate cfg env s = .cont s' out := by
  obtain ⟨s1, acks, hr⟩ := render_phase_ok_of_alloc cfg env s (Or.inl hb.2.2.2.1)
  rw [iterate_eq_post cfg env s s1 acks hr (Or.inr hb.1),
    iterate_post_eq_cont cfg env _ acks _ hb.2.1 hb.2.2.1]
  exact ⟨_, _, rfl⟩

/-- C5: in synchronized mode at most one frame-callback handle is
outstanding at every point of the loop: the count of live callbacks is
preserved under the bound 1 by any loop iteration; a submit attempt
while a callback is outstanding is rejected outright (no render, no new
callback, no acknowledgment); a submission from the idle state registers
exactly one callback; and the callback slot is cleared exactly by the
`frame_done` event and by no other event. -/
theorem sync_callback_spec (cfg : Config) (hu : cfg.unsynchronized = false) :
    (∀ (env : IterEnv) (s s' : MainState), s.wl.frame ≤ 1 →
      (iterate cfg env s).state = some s' → s'.wl.frame ≤ 1)
    ∧ (∀ (env : IterEnv) (s : MainState), s.wl.frame ≠ 0 →
      render_phase cfg env s = .ok (s, []))
    ∧ (∀ (env : IterEnv) (s s1 : MainState) (acks : List Nat), s.wl.frame = 0 →
      render_phase cfg env s = .ok (s1, acks) → s1.wl.frame = 1)
    ∧ (∀ wl : WlState, (dispatch_event wl .frame_done).frame = 0)
    ∧ (∀ (wl : WlState) (e : Event), e ≠ .frame_done →
      (dispatch_event wl e).frame = wl.frame) := by
  have hone : ∀ (env : IterEnv) (s s1 : MainState) (acks : List Nat), s.wl.frame = 0 →
      render_phase cfg env s = .ok (s1, acks) → s1.wl.frame = 1 := by
    intro env s s1 acks h0 hr
    have hc := render_phase_ok_char cfg env s s1 acks hr (Or.inr h0)
    rw [hc.1, resolve_resize_frame]
    have : (¬cfg.unsynchronized) = True := by simp [hu]
    simp [hu, h0]
  refine ⟨?_, fun env s h => render_phase_rejected cfg env s hu h, hone, ?_, ?_⟩
  · intro env s s' hle h
    obtain ⟨s1, acks, hr, hfr, _, _⟩ := iterate_ok_char cfg env s s' h
    by_cases h0 : s.wl.frame = 0
    · have := hone env s s1 acks h0 hr
      omega
    · rw [render_phase_rejected cfg env s hu h0] at hr
      cases hr
      omega
  · intro wl
    rfl
  · intro wl e he
    cases e <;> simp [dispatch_event] at he ⊢

/-- Concrete instance discharging the hypotheses of `sync_callback_spec`:
with a callback outstanding (`frame = 1`), the synchronized render gate
rejects the submission, leaving the state untouched and acknowledging
nothing. -/
theorem sync_callback_spec_witness :
    (Config.mk false false 0 0 100 true).unsynchronized = false
    ∧ (MainState.mk (WlState.mk false 0 500 500 1) 4 init_tracker).wl.frame ≠ 0
    ∧ render_phase (Config.mk false false 0 0 100 true)
        (IterEnv.mk 9 77 true [] true false false false [] [] (fun _ => 0))
        (MainState.mk (WlState.mk false 0 500 500 1) 4 init_tracker) =
      .ok (MainState.mk (WlState.mk false 0 500 500 1) 4 init_tracker, []) :=
  ⟨rfl, by decide,
   (sync_callback_spec (Config.mk false false 0 0 100 true) rfl).2.1
     (IterEnv.mk 9 77 true [] true false false false [] [] (fun _ => 0))
     (MainState.mk (WlState.mk false 0 500 500 1) 4 init_tracker) (by decide)⟩

/-- C6: in unsynchronized mode the scheduler is `Ready` on every
iteration regardless of the tracked-fence count (the state is
universally quantified, so any tracker contents are covered): the render
gate always passes, every successful render phase submits exactly one
frame without registering any frame callback, submission never fails
when allocation succeeds (or fences are unsupported), and from the
initial callback-free state no iteration ever creates a callback, so the
`PendingCallback` state is never entered. -/
theorem unsync_ready_spec (cfg : Config) (hu : cfg.unsynchronized = true) :
    (∀ frame : Nat, sched_state cfg.unsynchronized frame = .Ready)
    ∧ (∀ (env : IterEnv) (s s1 : MainState) (acks : List Nat),
        render_phase cfg env s = .ok (s1, acks) →
        s1.frame_num = s.frame_num + 1 ∧ s1.wl.frame = s.wl.frame)
    ∧ (∀ (env : IterEnv) (s : MainState),
        env.alloc_ok = true ∨ cfg.egl_has_fences = false →
        ∃ s1 acks, render_phase cfg env s = .ok (s1, acks))
    ∧ (∀ (env : IterEnv) (s s' : MainState), s.wl.frame = 0 →
        (iterate cfg env s).state = some s' →
        s'.wl.frame = 0 ∧ sched_state cfg.unsynchronized s'.wl.frame = .Ready) := by
  have hsched : ∀ frame : Nat, sched_state cfg.unsynchronized frame = .Ready := by
    intro frame
    rw [sched_state]
    simp [hu]
  have hrch : ∀ (env : IterEnv) (s s1 : MainState) (acks : List Nat),
      render_phase cfg env s = .ok (s1, acks) →
      s1.frame_num = s.frame_num + 1 ∧ s1.wl.frame = s.wl.frame := by
    intro env s s1 acks hr
    have hc := render_phase_ok_char cfg env s s1 acks hr (Or.inl hu)
    refine ⟨hc.2.2.1, ?_⟩
    rw [hc.1, resolve_resize_frame]
    simp [hu]
  refine ⟨hsched, hrch, fun env s h => render_phase_ok_of_alloc cfg env s h, ?_⟩
  intro env s s' h0 h
  obtain ⟨s1, acks, hr, hfr, _, _⟩ := iterate_ok_char cfg env s s' h
  have := (hrch env s s1 acks hr).2
  constructor
  · omega
  · exact hsched _

/-- Concrete instance discharging the hypotheses of `unsync_ready_spec`:
in unsynchronized mode the scheduler is `Ready`, and with allocation
succeeding a render phase always submits. -/
theorem unsync_ready_spec_witness :
    sched_state (Config.mk true false 0 0 100 true).unsynchronized 0 = .Ready
    ∧ ∃ s1 acks, render_phase (Config.mk true false 0 0 100 true)
        (IterEnv.mk 9 77 true [] true false false false [] [] (fun _ => 0))
        (MainState.mk (WlState.mk false 0 500 500 0) 0 init_tracker) = .ok (s1, acks) :=
  ⟨(unsync_ready_spec (Config.mk true false 0 0 100 true) rfl).1 0,
   (unsync_ready_spec (Config.mk true false 0 0 100 true) rfl).2.2.1
     (IterEnv.mk 9 77 true [] true false false false [] [] (fun _ => 0))
     (MainState.mk (WlState.mk false 0 500 500 0) 0 init_tracker) (Or.inl rfl)⟩

lemma render_phase_fds_ne (cfg : Config) (env : IterEnv) (s s1 : MainState)
    (acks : List Nat) (hr : render_phase cfg env s = .ok (s1, acks))
    (hne : s.tracker.fds ≠ []) : s1.tracker.fds ≠ [] := by
  by_cases hgate : cfg.unsynchronized = true ∨ s.wl.frame = 0
  · rcases (render_phase_ok_char cfg env s s1 acks hr hgate).2.2.2 with h | ⟨_, h⟩
    · rw [h]
      exact hne
    · rw [h]
      simp
  · push_neg at hgate
    rw [render_phase_rejected cfg env s (by simpa using hgate.1) hgate.2] at hr
    cases hr
    exact hne

lemma reap_fds_head (e : Int → Nat) (f : pollfd) (fs : List pollfd)
    (ms : List fence_rec) : ∃ rest, (reap e (f :: fs) ms).1 = f :: rest := by
  cases ms with
  | nil => exact ⟨fs, rfl⟩
  | cons m0 ms => exact ⟨_, rfl⟩

/-- C9: fatal transport conditions — a non-transient flush failure, a
poll failure other than interruption, or error/hangup on the connection
socket — each end the loop with `break` after aborting the read-intent
transaction (`cancel_read = true`, and no fences are reaped in that
pass); whereas a transient flush failure (would-block) merely arms
write-readiness (POLLOUT) on the connection socket entry and the loop
continues with the transaction committed (`cancel_read = false`).
After a `brk` result `main` falls out of the loop into the single
teardown sequence. -/
theorem fatal_error_paths (cfg : Config) (env : IterEnv) (s : MainState)
    (halloc : env.alloc_ok = true ∨ cfg.egl_has_fences = false) :
    (env.flush_drained = false → env.flush_fatal = true →
      ∃ s' acks, iterate cfg env s =
        .brk s' { acks := acks, samples := [], cancel_read := true })
    ∧ (env.flush_drained = true ∨ env.flush_fatal = false → env.poll_fatal = true →
      ∃ s' acks, iterate cfg env s =
        .brk s' { acks := acks, samples := [], cancel_read := true })
    ∧ (env.flush_drained = true ∨ env.flush_fatal = false → env.poll_fatal = false →
      env.sock_errhup = true →
      ∃ s' acks, iterate cfg env s =
        .brk s' { acks := acks, samples := [], cancel_read := true })
    ∧ (env.flush_drained = false → env.flush_fatal = false → env.poll_fatal = false →
      env.sock_errhup = false → s.tracker.fds ≠ [] →
      ∃ s' out, iterate cfg env s = .cont s' out ∧ out.cancel_read = false ∧
        ∃ f0 rest, s'.tracker.fds = f0 :: rest ∧ f0.events_pollout = true) := by
  obtain ⟨s1, acks, hr⟩ := render_phase_ok_of_alloc cfg env s halloc
  refine ⟨?_, ?_, ?_, ?_⟩
  · intro h1 h2
    exact ⟨_, acks, iterate_eq_flush_fatal cfg env s s1 acks hr h1 h2⟩
  · intro hflush hp
    rw [iterate_eq_post cfg env s s1 acks hr hflush,
      iterate_post_eq_poll_fatal cfg env _ acks _ hp]
    exact ⟨_, acks, rfl⟩
  · intro hflush hp hh
    rw [iterate_eq_post cfg env s s1 acks hr hflush,
      iterate_post_eq_errhup cfg env _ acks _ hp hh]
    exact ⟨_, acks, rfl⟩
  · intro hd hf hp hh hne
    have hne1 : s1.tracker.fds ≠ [] := render_phase_fds_ne cfg env s s1 acks hr hne
    rw [iterate_eq_post cfg env s s1 acks hr (Or.inr hf),
      iterate_post_eq_cont cfg env _ acks _ hp hh]
    refine ⟨_, _, rfl, rfl, ?_⟩
    rcases hfds : s1.tracker.fds with _ | ⟨f0, rest⟩
    · exact absurd hfds hne1
    · have h1 : set_pollout (!env.flush_drained) (f0 :: rest) =
          { f0 with events_pollout := true } :: rest := by
        rw [hd]
        rfl
      have h2 : set_revents env.sock_errhup env.fence_ready
            ({ f0 with events_pollout := true } :: rest) =
          { f0 with events_pollout := true, revents_errhup := env.sock_errhup } ::
            set_revents.set_fence_revents rest env.fence_ready := rfl
      obtain ⟨rest', hr'⟩ := reap_fds_head env.end_ts
        { f0 with events_pollout := true, revents_errhup := env.sock_errhup }
        (set_revents.set_fence_revents rest env.fence_ready) s1.tracker.fences
      refine ⟨{ f0 with events_pollout := true, revents_errhup := env.sock_errhup },
        rest', ?_, rfl⟩
      rw [h1, h2]
      exact hr'

/-- Concrete instance discharging the hypotheses of `fatal_error_paths`:
a hangup on the connection socket ends the loop with the read-intent
transaction aborted. -/
theorem fatal_error_paths_witness :
    ∃ s' acks, iterate (Config.mk true false 0 0 100 false)
        (IterEnv.mk 9 77 true [] true false false true [] [] (fun _ => 0))
        (MainState.mk (WlState.mk false 0 500 500 0) 0 init_tracker) =
      .brk s' { acks := acks, samples := [], cancel_read := true } :=
  (fatal_error_paths (Config.mk true false 0 0 100 false)
      (IterEnv.mk 9 77 true [] true false false true [] [] (fun _ => 0))
      (MainState.mk (WlState.mk false 0 500 500 0) 0 init_tracker)
      (Or.inl rfl)).2.2.1 (Or.inl rfl) rfl rfl

/-! ## Helper lemmas: the loop as a whole -/

lemma run_loop_stop (cfg : Config) (envs : Nat → IterEnv) (i fuel : Nat)
    (s : MainState) (h : ¬(s.wl.close = false ∧ s.frame_num < cfg.max_frames)) :
    run_loop cfg envs i fuel s = (s, .normal) := by
  rw [run_loop.eq_def, if_neg h]

lemma run_loop_step (cfg : Config) (envs : Nat → IterEnv) (i fuel : Nat)
    (s : MainState) (h : s.wl.close = false ∧ s.frame_num < cfg.max_frames) :
    run_loop cfg envs i (fuel + 1) s =
      match iterate cfg (envs i) s with
      | .cont s' _ => run_loop cfg envs (i + 1) fuel s'
      | .brk s' _ => (s', .broke)
      | .fatalExit c => (s, .fatal c) := by
  rw [run_loop.eq_def, if_pos h]

lemma iterate_benign_unsync_step (cfg : Config) (env : IterEnv) (s : MainState)
    (hu : cfg.unsynchronized = true) (hb : benign_env env)
    (hclose : s.wl.close = false) :
    ∃ s' out, iterate cfg env s = .cont s' out ∧
      s'.frame_num = s.frame_num + 1 ∧ s'.wl.close = false := by
  obtain ⟨s', out, hit⟩ := iterate_cont_of_benign cfg env s hb
  have hstate : (iterate cfg env s).state = some s' := by
    rw [hit]
    rfl
  obtain ⟨s1, acks, hr, _, hfn, hcl⟩ := iterate_ok_char cfg env s s' hstate
  have hch := render_phase_ok_char cfg env s s1 acks hr (Or.inl hu)
  refine ⟨s', out, hit, ?_, ?_⟩
  · rw [hfn, hch.2.2.1]
  · rw [hcl hb.2.2.2.2.1 hb.2.2.2.2.2, hch.1, resolve_resize_close]
    simpa [hu] using hclose

/-- C3: with max-frame-count K and unsynchronized mode, in any run whose
per-iteration environments are benign (no fatal flush, poll, socket, or
allocation error, and no close request — the server may otherwise answer
or stay silent), the loop submits exactly one frame per iteration and
exits normally with exactly `max_frames` total submissions: from any
state with the close flag clear, `frame_num ≤ K`, and enough fuel, the
loop ends with exit status `normal` and final frame counter exactly K. -/
theorem unsync_exact_submissions (cfg : Config) (envs : Nat → IterEnv)
    (hu : cfg.unsynchronized = true) (henv : ∀ i, benign_env (envs i)) :
    ∀ (fuel i : Nat) (s : MainState), s.wl.close = false →
      s.frame_num ≤ cfg.max_frames → cfg.max_frames - s.frame_num ≤ fuel →
      ∃ sf, run_loop cfg envs i fuel s = (sf, .normal) ∧
        sf.frame_num = cfg.max_frames := by
  intro fuel
  induction fuel with
  | zero =>
    intro i s hclose hle hfuel
    have heq : s.frame_num = cfg.max_frames := by omega
    refine ⟨s, run_loop_stop cfg envs i 0 s ?_, heq⟩
    intro hcond
    omega
  | succ fuel ih =>
    intro i s hclose hle hfuel
    by_cases hlt : s.frame_num < cfg.max_frames
    · obtain ⟨s', out, hit, hfn, hcl⟩ :=
        iterate_benign_unsync_step cfg (envs i) s hu (henv i) hclose
      rw [run_loop_step cfg envs i fuel s ⟨hclose, hlt⟩, hit]
      exact ih (i + 1) s' hcl (by omega) (by omega)
    · have heq : s.frame_num = cfg.max_frames := by omega
      refine ⟨s, run_loop_stop cfg envs i (fuel + 1) s ?_, heq⟩
      intro hcond
      omega

/-- Concrete instance discharging the hypotheses of
`unsync_exact_submissions`: an unsynchronized run capped at 2 frames
against a silent server submits exactly twice and exits normally. -/
theorem unsync_exact_submissions_witness :
    ∃ sf, run_loop (Config.mk true false 0 0 2 false)
        (fun _ => IterEnv.mk 0 0 true [] true false false false [] [] (fun _ => 0))
        0 2 (MainState.mk (WlState.mk false 0 0 0 0) 0 init_tracker) = (sf, .normal) ∧
      sf.frame_num = (Config.mk true false 0 0 2 false).max_frames :=
  unsync_exact_submissions (Config.mk true false 0 0 2 false)
    (fun _ => IterEnv.mk 0 0 true [] true false false false [] [] (fun _ => 0)) rfl
    (fun _ => ⟨rfl, rfl, rfl, rfl, by simp, by simp⟩)
    2 0 (MainState.mk (WlState.mk false 0 0 0 0) 0 init_tracker) rfl
    (by decide) (by decide)

/-! ## Helper lemmas: strict monotonicity of tracked frame numbers -/

lemma reap_loop_fences_sublist (e : Int → Nat) :
    ∀ (fs : List pollfd) (ms : List fence_rec), List.Sublist (reap_loop e fs ms).2.1 ms
  | f :: fs, m :: ms => by
    rw [reap_loop]
    have ih := reap_loop_fences_sublist e fs ms
    by_cases hr : f.revents_pollin = true <;> simp [hr]
    · exact ih.cons m
    · exact ih
  | [], ms => List.Sublist.refl ms
  | f :: fs, [] => List.nil_sublist []

lemma reap_loop_samples_sublist (e : Int → Nat) :
    ∀ (fs : List pollfd) (ms : List fence_rec),
      List.Sublist ((reap_loop e fs ms).2.2.map Prod.fst) (ms.map (fun m => m.frame_num))
  | f :: fs, m :: ms => by
    rw [reap_loop]
    have ih := reap_loop_samples_sublist e fs ms
    by_cases hr : f.revents_pollin = true <;> simp [hr]
    · exact ih
    · exact ih.cons m.frame_num
  | [], ms => List.nil_sublist _
  | f :: fs, [] => List.nil_sublist _

lemma reap_fences_shape (e : Int → Nat) (fds : List pollfd) (fences : List fence_rec) :
    (reap e fds fences).2.1 = fences ∨
    ∃ m0 ms rl, fences = m0 :: ms ∧ (reap e fds fences).2.1 = m0 :: rl ∧
      List.Sublist rl ms := by
  match fds, fences with
  | f0 :: fs, m0 :: ms =>
    exact Or.inr ⟨m0, ms, _, rfl, rfl, reap_loop_fences_sublist e fs ms⟩
  | [], fences => exact Or.inl rfl
  | f0 :: fs, [] => exact Or.inl rfl

lemma reap_samples_sublist (e : Int → Nat) (fds : List pollfd)
    (fences : List fence_rec) :
    List.Sublist ((reap e fds fences).2.2.map Prod.fst)
      (fences.tail.map (fun m => m.frame_num)) := by
  match fds, fences with
  | f0 :: fs, m0 :: ms => exact reap_loop_samples_sublist e fs ms
  | [], fences => simp [reap]
  | f0 :: fs, [] => simp [reap]

lemma tail_append_single {α : Type} (l : List α) (a : α) (h : l ≠ []) :
    (l ++ [a]).tail = l.tail ++ [a] := by
  cases l with
  | nil => exact absurd rfl h
  | cons x xs => simp

/-- Inductive invariant for C10: the frame numbers stored in the
metadata collection at positions 1..len-1 are strictly increasing and
all below the current frame counter, and the reserved position 0
exists. -/
def tracker_inv (s : MainState) : Prop :=
  (s.tracker.fences.tail.map (fun m => m.frame_num)).Pairwise (· < ·)
  ∧ (∀ m ∈ s.tracker.fences.tail, m.frame_num < s.frame_num)
  ∧ s.tracker.fences ≠ []

lemma tracker_inv_render (cfg : Config) (env : IterEnv) (s s1 : MainState)
    (acks : List Nat) (hr : render_phase cfg env s = .ok (s1, acks))
    (hinv : tracker_inv s) : tracker_inv s1 := by
  obtain ⟨hpw, hbound, hne⟩ := hinv
  by_cases hgate : cfg.unsynchronized = true ∨ s.wl.frame = 0
  · have hc := render_phase_ok_char cfg env s s1 acks hr hgate
    have hfn : s1.frame_num = s.frame_num + 1 := hc.2.2.1
    rcases hc.2.2.2 with htr | ⟨hfen, _⟩
    · exact ⟨by rw [htr]; exact hpw,
        fun m hm => by
          rw [htr] at hm
          rw [hfn]
          exact Nat.lt_succ_of_lt (hbound m hm),
        by rw [htr]; exact hne⟩
    · have htail : s1.tracker.fences.tail =
          s.tracker.fences.tail ++ [{ frame_num := s.frame_num, start_ns := env.start_ns }] := by
        rw [hfen]
        exact tail_append_single _ _ hne
      refine ⟨?_, ?_, ?_⟩
      · rw [htail]
        rw [List.map_append, List.pairwise_append]
        refine ⟨hpw, by simp, ?_⟩
        intro x hx y hy
        simp only [List.map_cons, List.map_nil, List.mem_singleton] at hy
        subst hy
        obtain ⟨m, hm, rfl⟩ := List.mem_map.mp hx
        exact hbound m hm
      · intro m hm
        rw [htail] at hm
        rw [hfn]
        rcases List.mem_append.mp hm with h' | h'
        · exact Nat.lt_succ_of_lt (hbound m h')
        · simp only [List.mem_singleton] at h'
          subst h'
          exact Nat.lt_succ_self _
      · rw [hfen]
        simp
  · push_neg at hgate
    rw [render_phase_rejected cfg env s (by simpa using hgate.1) hgate.2] at hr
    cases hr
    exact ⟨hpw, hbound, hne⟩

/-- C10: the frame numbers stored in the tracker's metadata collection at
positions 1..len-1 are strictly increasing — an invariant preserved by
every loop iteration (`track` appends the strictly growing frame
counter; reap compaction keeps a sublist in order) — and consequently
the latency samples emitted by one iteration carry strictly increasing,
hence pairwise distinct, frame ids. -/
theorem tracker_frames_spec (cfg : Config) (env : IterEnv) (s : MainState)
    (hinv : tracker_inv s) :
    (∀ s', (iterate cfg env s).state = some s' → tracker_inv s')
    ∧ (∀ s' out, iterate cfg env s = .cont s' out →
        (out.samples.map Prod.fst).Pairwise (· < ·)) := by
  rcases hr : render_phase cfg env s with c | ⟨s1, acks⟩
  · constructor
    · intro s' h
      rw [iterate_eq_fatalExit cfg env s c hr, IterResult.state] at h
      cases h
    · intro s' out h
      rw [iterate_eq_fatalExit cfg env s c hr] at h
      cases h
  · have hinv1 : tracker_inv s1 := tracker_inv_render cfg env s s1 acks hr hinv
    by_cases hff : env.flush_drained = false ∧ env.flush_fatal = true
    · constructor
      · intro s' h
        rw [iterate_eq_flush_fatal cfg env s s1 acks hr hff.1 hff.2,
          IterResult.state] at h
        cases h
        exact hinv1
      · intro s' out h
        rw [iterate_eq_flush_fatal cfg env s s1 acks hr hff.1 hff.2] at h
        cases h
    · have hflush : env.flush_drained = true ∨ env.flush_fatal = false := by
        by_cases hd : env.flush_drained = true
        · exact Or.inl hd
        · refine Or.inr ?_
          rcases Bool.eq_false_or_eq_true env.flush_fatal with h' | h'
          · exact absurd ⟨by simpa using hd, h'⟩ hff
          · exact h'
      rw [iterate_eq_post cfg env s s1 acks hr hflush]
      by_cases hp : env.poll_fatal = true
      · rw [iterate_post_eq_poll_fatal cfg env _ acks _ hp]
        constructor
        · intro s' h
          rw [IterResult.state] at h
          cases h
          exact hinv1
        · intro s' out h
          cases h
      · have hp' : env.poll_fatal = false := by simpa using hp
        by_cases hh : env.sock_errhup = true
        · rw [iterate_post_eq_errhup cfg env _ acks _ hp' hh]
          constructor
          · intro s' h
            rw [IterResult.state] at h
            cases h
            exact hinv1
          · intro s' out h
            cases h
        · have hh' : env.sock_errhup = false := by simpa using hh
          rw [iterate_post_eq_cont cfg env _ acks _ hp' hh']
          obtain ⟨hpw1, hbound1, hne1⟩ := hinv1
          constructor
          · intro s' h
            rw [IterResult.state] at h
            cases h
            rcases reap_fences_shape env.end_ts
                (set_revents env.sock_errhup env.fence_ready
                  (set_pollout (!env.flush_drained) s1.tracker.fds))
                s1.tracker.fences with hsh | ⟨m0, ms, rl, hf, hsh, hsub⟩
            · exact ⟨by rw [hsh]; exact hpw1, fun m hm => by
                rw [hsh] at hm
                exact hbound1 m hm, by rw [hsh]; exact hne1⟩
            · refine ⟨?_, ?_, ?_⟩
              · rw [hsh]
                refine List.Pairwise.sublist ?_ hpw1
                rw [hf]
                exact (hsub.map _)
              · intro m hm
                rw [hsh] at hm
                refine hbound1 m ?_
                rw [hf]
                exact hsub.subset hm
              · rw [hsh]
                simp
          · intro s' out h
            cases h
            exact List.Pairwise.sublist
              (reap_samples_sublist env.end_ts _ s1.tracker.fences) hpw1

/-- Concrete instance discharging the hypothesis of
`tracker_frames_spec`: one unsynchronized iteration that tracks a new
fence for frame 1 and reaps the completed fence of frame 0 preserves the
strict ordering of tracked frame numbers. -/
theorem tracker_frames_spec_witness :
    tracker_inv (MainState.mk (WlState.mk false 0 0 0 0) 1
      (Tracker.mk 10 [socket_entry, pollfd.mk 100 true false true false]
        [fence_rec.mk 0 0, fence_rec.mk 0 5]))
    ∧ tracker_inv (MainState.mk (WlState.mk false 0 0 0 0) 2
      (Tracker.mk 10 [pollfd.mk 3 true false false false, pollfd.mk 101 true false false false]
        [fence_rec.mk 0 0, fence_rec.mk 1 7])) := by
  have h0 : tracker_inv (MainState.mk (WlState.mk false 0 0 0 0) 1
      (Tracker.mk 10 [socket_entry, pollfd.mk 100 true false true false]
        [fence_rec.mk 0 0, fence_rec.mk 0 5])) := by
    unfold tracker_inv
    refine ⟨by decide, by decide, by decide⟩
  refine ⟨h0, ?_⟩
  exact (tracker_frames_spec (Config.mk true false 0 0 10 true)
    (IterEnv.mk 101 7 true [] true false false false [true] [] (fun _ => 1000))
    (MainState.mk (WlState.mk false 0 0 0 0) 1
      (Tracker.mk 10 [socket_entry, pollfd.mk 100 true false true false]
        [fence_rec.mk 0 0, fence_rec.mk 0 5])) h0).1
    (MainState.mk (WlState.mk false 0 0 0 0) 2
      (Tracker.mk 10 [pollfd.mk 3 true false false false, pollfd.mk 101 true false false false]
        [fence_rec.mk 0 0, fence_rec.mk 1 7])) rfl

end CompositorKiller
